import Mathlib

/-!
Verification development for the cannyfs deferred-operation engine
(src/example/cannyfs.cpp). Each definition is a shallow embedding of the
corresponding C++ entity; stateful code is modelled by explicit state
passing on a sequential state type, and each syscall callback is modelled
as a function from its inputs (including the results of the underlying
POSIX calls, passed as parameters) to the list of actions it performs and
the value it returns to the kernel.
-/

namespace Cannyfs

/-- Barrier flag JUST_BARRIER from the source. -/
def JUST_BARRIER : Int := 0

/-- Barrier flag LOCK_WHOLE from the source. -/
def LOCK_WHOLE : Int := 1

/-- Per-path record cannyfs_filedata. Only the lastEventId field carries
sequential state; the mutex and the condition variable are
synchronization primitives with no data content. A default-constructed
record has lastEventId 0. -/
structure FileData where
  lastEventId : Int
deriving DecidableEq

/-- The map from path to cannyfs_filedata held inside cannyfs_filemap,
modelled as an association list keyed by the path string. -/
abbrev FileMap := List (String × FileData)

/-- Lookup in the path directory, mirroring data.find(path). -/
def findPath : FileMap → String → Option FileData
  | [], _ => none
  | (k, v) :: rest, p => if k = p then some v else findPath rest p

/-- Process-wide mutable state that the claims touch: the path directory
(filemap), the pending set waitingEvents, and the atomic event counter
eventId. -/
structure FSState where
  filemap : FileMap
  waitingEvents : Finset Int
  eventId : Int
deriving DecidableEq

/-- cannyfs_filemap::get(path, always, lock): a shared-mode lookup first;
on a miss with always set, an exclusive-mode insert of a
default-constructed record (lastEventId = 0). Returns the updated state
and the record that was found or created (none on a miss without
always). -/
def cannyfs_filemap_get (s : FSState) (path : String) (always : Bool) :
    FSState × Option FileData :=
  match findPath s.filemap path with
  | some fd => (s, some fd)
  | none =>
    if always then
      ({ s with filemap := s.filemap ++ [(path, ⟨0⟩)] }, some (⟨0⟩ : FileData))
    else (s, none)

/-- The lookup step of the cannyfs_reader constructor:
filemap.get(path, flag == LOCK_WHOLE, locallock). -/
def cannyfs_reader_lookup (s : FSState) (path : String) (flag : Int) :
    FSState × Option FileData :=
  cannyfs_filemap_get s path (decide (flag = LOCK_WHOLE))

/-- The wait-loop guard of the cannyfs_reader constructor: with a record
present it snapshots eventId = fileobj->lastEventId once and waits on the
processed condition exactly while waitingEvents.find(eventId) hits; with
no record it does not wait at all. The constructor returns to its caller
precisely when this guard is false. -/
def cannyfs_reader_blocked (s : FSState) (path : String) (flag : Int) : Bool :=
  match (cannyfs_reader_lookup s path flag).2 with
  | some fd => decide (fd.lastEventId ∈ s.waitingEvents)
  | none => false

/-- Result of running the cannyfs_writer constructor: the state after
construction, and whether a recursive general writer was allocated into
the generalwriter member. -/
structure WriterResult where
  state : FSState
  hasGeneralWriter : Bool
deriving DecidableEq

/-- cannyfs_writer::cannyfs_writer(path, flag, eventId), with fuel for
the recursive new cannyfs_writer("", JUST_BARRIER, eventId). The member
global is initialized from the expression path != "". The ticket is
inserted into waitingEvents when global holds; the path record is
resolved or created via filemap.get(path, true, lock) (which never
assigns lastEventId); when !global && options.restrictivedirs holds, a
general writer on the empty path is constructed recursively. The flag
argument only affects lock retention, which carries no sequential state.
A none result means the recursion exhausts the given fuel. -/
def cannyfs_writer_ctor :
    Nat → FSState → String → Int → Int → Bool → Option WriterResult
  | 0, _, _, _, _, _ => none
  | fuel + 1, s, path, _flag, t, restrictivedirs =>
    let global : Bool := decide (path ≠ "")
    let s1 :=
      if global then { s with waitingEvents := insert t s.waitingEvents } else s
    let s2 := (cannyfs_filemap_get s1 path true).1
    if !global && restrictivedirs then
      match cannyfs_writer_ctor fuel s2 "" JUST_BARRIER t restrictivedirs with
      | some r => some ⟨r.state, true⟩
      | none => none
    else
      some ⟨s2, false⟩

/-- cannyfs_writer::~cannyfs_writer: erases the ticket from waitingEvents
only when !global holds, i.e. only when the path is the empty string;
then reacquires the serializer if needed and notifies the processed
waiters (the notification itself carries no sequential state). -/
def cannyfs_writer_dtor (s : FSState) (path : String) (t : Int) : FSState :=
  if decide (path ≠ "") then s
  else { s with waitingEvents := s.waitingEvents.erase t }

/-- The ticket allocation ++eventId at the top of cannyfs_add_write. -/
def cannyfs_add_write_ticket (s : FSState) : FSState × Int :=
  ({ s with eventId := s.eventId + 1 }, s.eventId + 1)

/-- The path selection in the cannyfs_dirreader constructor:
options.restrictivedirs ? "" : path. Both cannyfs_opendir and
cannyfs_readdir construct their barrier through cannyfs_dirreader. -/
def cannyfs_dirreader_path (restrictivedirs : Bool) (path : String) : String :=
  if restrictivedirs then "" else path

/-- Operations performed against one cannyfs_filehandle. -/
inductive HandleOp
  | setfh (v : Int)
  | getfh
deriving DecidableEq

/-- Running a sequence of operations against the fd field of one
cannyfs_filehandle (initialized to -1 by the constructor). setfh stores
its argument unconditionally and notifies the opened condition; getfh
returns fd when it is bound and otherwise blocks on opened, recorded
here as a none outcome. The result is the final fd together with the
outcomes of the getfh calls in order. -/
def cannyfs_filehandle_run : Int → List HandleOp → Int × List (Option Int)
  | fd, [] => (fd, [])
  | _fd, HandleOp.setfh v :: rest => cannyfs_filehandle_run v rest
  | fd, HandleOp.getfh :: rest =>
    let r := cannyfs_filehandle_run fd rest
    (r.1, (if fd = -1 then none else some fd) :: r.2)

/-- Actions of the create/open flow. -/
inductive OpenAction
  | allocHandle (h : Nat)
  | openSys (path : String)
  | setfhBroadcast (h : Nat)
deriving DecidableEq

/-- Outcome of a create/open callback: the actions it performs
synchronously before returning to the kernel, the actions performed later
by a closure submitted to the executor, and the returned value. -/
structure OpenFlow where
  syncActions : List OpenAction
  deferredActions : List OpenAction
  ret : Int
deriving DecidableEq

/-- cannyfs_open: fi->fh = getnewfh() - fhs.begin() synchronously, then
the real open(path, fi->flags) inline on the calling thread; on failure
return -errno, otherwise bind the descriptor with setfh (which notifies
the opened condition) and return 0. Nothing is submitted to the
executor. openRes is the result of the underlying open syscall. -/
def cannyfs_open (path : String) (h : Nat) (openRes errno : Int) : OpenFlow :=
  if openRes = -1 then
    ⟨[OpenAction.allocHandle h, OpenAction.openSys path], [], -errno⟩
  else
    ⟨[OpenAction.allocHandle h, OpenAction.openSys path,
      OpenAction.setfhBroadcast h], [], 0⟩

/-- cannyfs_create: fi->fh = getnewfh() - fhs.begin() synchronously, then
cannyfs_add_write(options.eagercreate, path, fi, closure); the closure
performs the real open and on success binds the descriptor via setfh
(notifying the opened condition). With the defer flag set the closure is
submitted via workQueue.run and the callback returns 0 at once; otherwise
the closure runs inline. -/
def cannyfs_create (eagercreate : Bool) (path : String) (h : Nat)
    (openRes errno : Int) : OpenFlow :=
  let closureActs :=
    if openRes = -1 then [OpenAction.openSys path]
    else [OpenAction.openSys path, OpenAction.setfhBroadcast h]
  if eagercreate then
    ⟨[OpenAction.allocHandle h], closureActs, 0⟩
  else
    ⟨OpenAction.allocHandle h :: closureActs, [],
      if openRes = -1 then -errno else 0⟩

/-- A descriptor value as the close paths see it: either the raw
descriptor stored in the virtual handle, or a fresh dup of it. -/
inductive Desc
  | orig (fd : Int)
  | dupped (fd : Int)
deriving DecidableEq

/-- Outcome of a flush/release callback: descriptors appended to the
process-wide closes reservoir, descriptors for which a close is issued or
scheduled, and the returned value. -/
structure CloseFlow where
  reservoir : List Desc
  scheduledCloses : List Desc
  ret : Int
deriving DecidableEq

/-- cannyfs_flush: with options.closeverylate it pushes dup(getfh(fi))
onto the closes reservoir and returns 0 at once; otherwise it hands
cannyfs_add_write(options.eagerclose, ...) a closure that closes a fresh
dup of the descriptor: deferred (returning 0) when eagerclose holds, else
inline with the close result mapped to -errno on failure. -/
def cannyfs_flush (closeverylate eagerclose : Bool) (fd : Int)
    (closeRes errno : Int) : CloseFlow :=
  if closeverylate then ⟨[Desc.dupped fd], [], 0⟩
  else if eagerclose then ⟨[], [Desc.dupped fd], 0⟩
  else ⟨[], [Desc.dupped fd], if closeRes = -1 then -errno else 0⟩

/-- cannyfs_release: with options.closeverylate it pushes the raw
descriptor getfh(fi) onto the closes reservoir and then, with no early
return, still reaches cannyfs_add_write(options.eagerclose, ...) whose
closure closes that same descriptor: deferred (returning 0) when
eagerclose holds, else inline returning the raw close result. -/
def cannyfs_release (closeverylate eagerclose : Bool) (fd : Int)
    (closeRes : Int) : CloseFlow :=
  let reservoir := if closeverylate then [Desc.orig fd] else []
  ⟨reservoir, [Desc.orig fd], if eagerclose then 0 else closeRes⟩

/-- Actions of the access callback. -/
inductive AccessAct
  | readerBarrier (path : String)
  | accessSys (path : String) (mask : Int)
deriving DecidableEq

/-- Outcome of the access callback: the actions performed in order and
the returned value. -/
structure AccessFlow where
  actions : List AccessAct
  ret : Int
deriving DecidableEq

/-- cannyfs_access: return 0 at once under options.veryeageraccess;
otherwise construct cannyfs_reader(path, JUST_BARRIER), then return 0
under options.eageraccess; otherwise perform the real access(path, mask)
and map failure (result -1) to -errno. accessRes is the result of the
underlying access syscall. -/
def cannyfs_access (veryeageraccess eageraccess : Bool) (path : String)
    (mask accessRes errno : Int) : AccessFlow :=
  if veryeageraccess then ⟨[], 0⟩
  else if eageraccess then ⟨[AccessAct.readerBarrier path], 0⟩
  else
    ⟨[AccessAct.readerBarrier path, AccessAct.accessSys path mask],
      if accessRes = -1 then -errno else 0⟩

/-- The sync syscalls the fsync closure can issue on the descriptor
resolved from the handle. -/
inductive SyncCall
  | fsyncSys (fd : Int)
  | fdatasyncSys (fd : Int)
deriving DecidableEq

/-- Outcome of the fsync callback: syscalls performed synchronously,
syscalls performed by a closure submitted to the executor, and the
returned value. -/
structure FsyncFlow where
  syncCalls : List SyncCall
  deferredCalls : List SyncCall
  ret : Int
deriving DecidableEq

/-- cannyfs_fsync: return 0 at once under options.ignorefsync; otherwise
hand cannyfs_add_write(options.eagerfsync, ...) a closure performing
fdatasync(getfh(fi)) when isdatasync is set and fsync(getfh(fi))
otherwise: submitted to the executor (returning 0) when eagerfsync holds,
else run inline with failure mapped to -errno. fd is the descriptor the
closure resolves from the handle; syncRes is the syscall result. -/
def cannyfs_fsync (ignorefsync eagerfsync : Bool) (isdatasync : Bool)
    (fd syncRes errno : Int) : FsyncFlow :=
  if ignorefsync then ⟨[], [], 0⟩
  else
    let call := if isdatasync then SyncCall.fdatasyncSys fd
      else SyncCall.fsyncSys fd
    if eagerfsync then ⟨[], [call], 0⟩
    else ⟨[call], [], if syncRes = -1 then -errno else 0⟩

/-- Steps of the cannyfs_write body, in program order. -/
inductive WriteStep
  | abortStep
  | pwriteStep (fd : Int)
deriving DecidableEq

/-- The body of cannyfs_write in program order: abort() first, then the
pwrite on the descriptor resolved from the handle. -/
def cannyfs_write_body (fd : Int) : List WriteStep :=
  [WriteStep.abortStep, WriteStep.pwriteStep fd]

/-- Process semantics of abort(): it terminates the process, so execution
of a step list stops at (and includes) the first abortStep. -/
def executedSteps : List WriteStep → List WriteStep
  | [] => []
  | WriteStep.abortStep :: _ => [WriteStep.abortStep]
  | s :: rest => s :: executedSteps rest

/-- Helper for C4: constructing a cannyfs_writer on the empty path with
options.restrictivedirs set recurses on itself (the guard
!global && restrictivedirs holds again in the recursive call), so it
exhausts any amount of fuel. -/
theorem cannyfs_writer_ctor_empty_restrictive (t : Int) :
    ∀ (fuel : Nat) (s : FSState) (flag : Int),
      cannyfs_writer_ctor fuel s "" flag t true = none := by
  intro fuel
  induction fuel with
  | zero => intro s flag; rfl
  | succ n ih =>
    intro s flag
    simp only [cannyfs_writer_ctor]
    rw [ih]
    rfl

/-- C1: the claim that a later operation B on the same path observes the
effects of an earlier submitted operation A fails on this code. From the
empty state, a deferred mutation on path "a" obtains ticket 1 from
cannyfs_add_write; its worker runs the writer-barrier constructor, so
ticket 1 sits in the pending set, but the constructor never stores the
ticket into the lastEventId field of the record. A reader barrier for B
on "a" therefore snapshots lastEventId = 0, finds 0 absent from the
pending set, and does not block, so B proceeds while the mutation of A
is still pending. -/
theorem c1_order_violated_eval :
    cannyfs_writer_ctor 2 (cannyfs_add_write_ticket ⟨[], ∅, 0⟩).1 "a"
        LOCK_WHOLE (cannyfs_add_write_ticket ⟨[], ∅, 0⟩).2 false
      = some ⟨⟨[("a", ⟨0⟩)], {1}, 1⟩, false⟩
    ∧ cannyfs_reader_blocked ⟨[("a", ⟨0⟩)], {1}, 1⟩ "a" JUST_BARRIER = false
    ∧ (cannyfs_add_write_ticket ⟨[], ∅, 0⟩).2
        ∈ FSState.waitingEvents ⟨[("a", ⟨0⟩)], {1}, 1⟩ := by
  decide

/-- C2 as stated is false: in a state where the record of path "a" holds
lastEventId 2 while ticket 1 is still pending, the reader barrier
returns (its wait loop tests only the snapshot itself for membership in
the pending set), yet ticket 1 ≤ 2 remains pending. -/
theorem c2_drain_counterexample :
    (cannyfs_reader_lookup ⟨[("a", ⟨2⟩)], {1}, 2⟩ "a" JUST_BARRIER).2
        = some ⟨2⟩
    ∧ cannyfs_reader_blocked ⟨[("a", ⟨2⟩)], {1}, 2⟩ "a" JUST_BARRIER = false
    ∧ (1 : Int) ∈ FSState.waitingEvents ⟨[("a", ⟨2⟩)], {1}, 2⟩
    ∧ (1 : Int) ≤ 2 := by
  decide

/-- C2 amended: when a reader barrier constructed on path p returns to
its caller, the snapshot of the lastEventId of the record of p taken at
construction is itself no longer in the pending set; the constructor
waits on the drain condition of the record precisely while that snapshot
ticket is pending. -/
theorem c2_reader_drains_snapshot (s : FSState) (path : String) (flag : Int)
    (fd : FileData)
    (hlook : (cannyfs_reader_lookup s path flag).2 = some fd)
    (hret : cannyfs_reader_blocked s path flag = false) :
    fd.lastEventId ∉ s.waitingEvents := by
  unfold cannyfs_reader_blocked at hret
  rw [hlook] at hret
  simpa using hret

/-- Witness for c2_reader_drains_snapshot at a concrete state. -/
theorem c2_reader_drains_snapshot_witness :
    (cannyfs_reader_lookup ⟨[("a", ⟨2⟩)], {1}, 2⟩ "a" JUST_BARRIER).2
        = some ⟨2⟩
    ∧ cannyfs_reader_blocked ⟨[("a", ⟨2⟩)], {1}, 2⟩ "a" JUST_BARRIER = false
    ∧ (2 : Int) ∉ FSState.waitingEvents ⟨[("a", ⟨2⟩)], {1}, 2⟩ :=
  ⟨by decide, by decide,
    c2_reader_drains_snapshot ⟨[("a", ⟨2⟩)], {1}, 2⟩ "a" JUST_BARRIER ⟨2⟩
      (by decide) (by decide)⟩

/-- C3 fails on this code. Constructing a path-specific writer
(path "a", ticket 1) does insert the ticket and create the record, and an
empty-path writer inserts nothing, as the claim says; but the constructor
never assigns lastEventId (it stays 0, not 1), and the destructor erases
the ticket only when the path is empty, so destroying the path-specific
writer leaves ticket 1 in the pending set forever. -/
theorem c3_writer_lifecycle_eval :
    cannyfs_writer_ctor 2 ⟨[], ∅, 0⟩ "a" JUST_BARRIER 1 false
      = some ⟨⟨[("a", ⟨0⟩)], {1}, 0⟩, false⟩
    ∧ cannyfs_writer_dtor ⟨[("a", ⟨0⟩)], {1}, 0⟩ "a" 1
        = ⟨[("a", ⟨0⟩)], {1}, 0⟩
    ∧ (1 : Int)
        ∈ FSState.waitingEvents (cannyfs_writer_dtor ⟨[("a", ⟨0⟩)], {1}, 0⟩ "a" 1)
    ∧ findPath (cannyfs_writer_dtor ⟨[("a", ⟨0⟩)], {1}, 0⟩ "a" 1).filemap "a"
        = some ⟨0⟩
    ∧ cannyfs_writer_ctor 1 ⟨[], ∅, 0⟩ "" JUST_BARRIER 7 false
        = some ⟨⟨[("", ⟨0⟩)], ∅, 0⟩, false⟩ := by
  decide

/-- C4 fails on this code. With restrictivedirs on, the writer for the
real path "a" allocates no general writer (the guard tests the negation
of path != "", so it fires only for the empty path), while constructing
the writer on the empty-path sentinel recurses on itself and exhausts any
amount of fuel. The directory-read half of the claim does hold:
cannyfs_dirreader rewrites the path to the empty sentinel exactly when
restrictivedirs is on. -/
theorem c4_restrictivedirs_eval :
    cannyfs_writer_ctor 5 ⟨[], ∅, 0⟩ "a" JUST_BARRIER 1 true
      = some ⟨⟨[("a", ⟨0⟩)], {1}, 0⟩, false⟩
    ∧ (∀ (fuel : Nat) (s : FSState),
        cannyfs_writer_ctor fuel s "" JUST_BARRIER 1 true = none)
    ∧ cannyfs_dirreader_path true "dir" = ""
    ∧ cannyfs_dirreader_path false "dir" = "dir" :=
  ⟨by decide,
    fun fuel s => cannyfs_writer_ctor_empty_restrictive 1 fuel s JUST_BARRIER,
    by decide, by decide⟩

/-- C5 as stated is false for open: cannyfs_open on path "p" (handle
slot 0, underlying open returning descriptor 5) submits no deferred
closure at all; the real open syscall is among the actions performed
synchronously before the callback returns. -/
theorem c5_open_not_deferred_counterexample :
    (cannyfs_open "p" 0 5 0).deferredActions = []
    ∧ OpenAction.openSys "p" ∈ (cannyfs_open "p" 0 5 0).syncActions
    ∧ (cannyfs_open "p" 0 5 0).ret = 0 := by
  decide

/-- C5 amended: create synchronously allocates the virtual handle id and
writes it to the handle slot of the kernel, and (under eagercreate) the
real open together with the setfh bind that broadcasts open_signal runs
in the submitted deferred closure; open also allocates the handle id
synchronously but performs the real open syscall and the setfh bind
inline before returning. -/
theorem c5_open_create_flow_amended (path : String) (h : Nat)
    (openRes errno : Int) (hok : openRes ≠ -1) :
    cannyfs_create true path h openRes errno
      = ⟨[OpenAction.allocHandle h],
          [OpenAction.openSys path, OpenAction.setfhBroadcast h], 0⟩
    ∧ cannyfs_open path h openRes errno
      = ⟨[OpenAction.allocHandle h, OpenAction.openSys path,
          OpenAction.setfhBroadcast h], [], 0⟩ := by
  constructor <;> simp [cannyfs_create, cannyfs_open, hok]

/-- Witness for c5_open_create_flow_amended at concrete inputs. -/
theorem c5_open_create_flow_amended_witness :
    (5 : Int) ≠ -1
    ∧ (cannyfs_create true "p" 0 5 0
        = ⟨[OpenAction.allocHandle 0],
            [OpenAction.openSys "p", OpenAction.setfhBroadcast 0], 0⟩
      ∧ cannyfs_open "p" 0 5 0
        = ⟨[OpenAction.allocHandle 0, OpenAction.openSys "p",
            OpenAction.setfhBroadcast 0], [], 0⟩) :=
  ⟨by decide, c5_open_create_flow_amended "p" 0 5 0 (by decide)⟩

/-- C6: over any sequence of operations against one virtual handle in
which every setfh stores the single non-negative descriptor v delivered
by the unique successful open for that handle (the free list of recycled
slots is never pushed to, and both call sites bind a freshly allocated
slot exactly once, guarded so that setfh only ever receives a
non-negative value), the fd field is only ever unbound (-1) or bound to
v — it is never rebound to a different value — and every getfh either
blocks on the opened condition (a none outcome) or returns v, the first
successfully bound non-negative descriptor. -/
theorem c6_handle_bind_invariants (v : Int) (hv : 0 ≤ v) :
    ∀ (ops : List HandleOp) (start : Int),
      (∀ w, HandleOp.setfh w ∈ ops → w = v) → (start = -1 ∨ start = v) →
      ((cannyfs_filehandle_run start ops).1 = -1
        ∨ (cannyfs_filehandle_run start ops).1 = v)
      ∧ ∀ r ∈ (cannyfs_filehandle_run start ops).2, r = none ∨ r = some v := by
  intro ops
  induction ops with
  | nil =>
    intro start _ hst
    exact ⟨hst, by simp [cannyfs_filehandle_run]⟩
  | cons op rest ih =>
    intro start hall hst
    cases op with
    | setfh w =>
      have hw : w = v := hall w (List.mem_cons_self _ _)
      have hrest := ih w (fun u hu => hall u (List.mem_cons_of_mem _ hu))
        (Or.inr hw)
      simpa [cannyfs_filehandle_run] using hrest
    | getfh =>
      have hrest := ih start (fun u hu => hall u (List.mem_cons_of_mem _ hu)) hst
      refine ⟨by simpa [cannyfs_filehandle_run] using hrest.1, ?_⟩
      intro r hr
      simp only [cannyfs_filehandle_run, List.mem_cons] at hr
      rcases hr with hr | hr
      · rcases hst with h1 | h1
        · left; rw [hr, h1]; simp
        · right
          have hne : start ≠ -1 := by omega
          rw [hr, h1]
          simp [h1 ▸ hne]
      · exact hrest.2 r hr

/-- Witness for c6_handle_bind_invariants at a concrete trace. -/
theorem c6_handle_bind_invariants_witness :
    (0 : Int) ≤ 5
    ∧ (∀ w, HandleOp.setfh w
          ∈ [HandleOp.getfh, HandleOp.setfh 5, HandleOp.getfh] → w = 5)
    ∧ (((-1 : Int) = -1 ∨ (-1 : Int) = 5)
    ∧ (((cannyfs_filehandle_run (-1)
            [HandleOp.getfh, HandleOp.setfh 5, HandleOp.getfh]).1 = -1
        ∨ (cannyfs_filehandle_run (-1)
            [HandleOp.getfh, HandleOp.setfh 5, HandleOp.getfh]).1 = 5)
      ∧ ∀ r ∈ (cannyfs_filehandle_run (-1)
            [HandleOp.getfh, HandleOp.setfh 5, HandleOp.getfh]).2,
          r = none ∨ r = some 5)) :=
  ⟨by decide, fun w hw => by simpa using hw, Or.inl rfl,
    c6_handle_bind_invariants 5 (by decide)
      [HandleOp.getfh, HandleOp.setfh 5, HandleOp.getfh] (-1)
      (fun w hw => by simpa using hw) (Or.inl rfl)⟩

/-- C7 fails on this code for release. With closeverylate on, flush does
push a dup of the descriptor onto the reservoir and return 0 with no
close scheduled; but release pushes the raw descriptor onto the
reservoir and then, lacking an early return, still schedules a close of
that very same descriptor through cannyfs_add_write, so the adopted
descriptor is closed by the scheduled close before teardown and closed
again by the reservoir at teardown. -/
theorem c7_closeverylate_eval :
    cannyfs_flush true true 5 0 0 = ⟨[Desc.dupped 5], [], 0⟩
    ∧ cannyfs_release true true 5 0 = ⟨[Desc.orig 5], [Desc.orig 5], 0⟩
    ∧ Desc.orig 5 ∈ (cannyfs_release true true 5 0).scheduledCloses
    ∧ Desc.orig 5 ∈ (cannyfs_release true true 5 0).reservoir := by
  decide

/-- C8: under veryeageraccess the access callback returns 0 with no
barrier and no syscall; otherwise it constructs a reader barrier on the
path and, under eageraccess, returns 0 without the underlying access
syscall; otherwise it performs the underlying syscall and maps a failing
result (-1) to the negated errno. -/
theorem c8_access_policy (ve ea : Bool) (path : String)
    (mask accessRes errno : Int) :
    (ve = true → cannyfs_access ve ea path mask accessRes errno = ⟨[], 0⟩)
    ∧ (ve = false → ea = true →
        cannyfs_access ve ea path mask accessRes errno
          = ⟨[AccessAct.readerBarrier path], 0⟩)
    ∧ (ve = false → ea = false →
        cannyfs_access ve ea path mask accessRes errno
          = ⟨[AccessAct.readerBarrier path, AccessAct.accessSys path mask],
              if accessRes = -1 then -errno else 0⟩) :=
  ⟨fun hv => by simp [cannyfs_access, hv],
    fun hv he => by simp [cannyfs_access, hv, he],
    fun hv he => by simp [cannyfs_access, hv, he]⟩

/-- Witness for c8_access_policy at concrete inputs. -/
theorem c8_access_policy_witness :
    cannyfs_access false false "p" 4 (-1) 13
      = ⟨[AccessAct.readerBarrier "p", AccessAct.accessSys "p" 4], -13⟩ := by
  have h := (c8_access_policy false false "p" 4 (-1) 13).2.2 rfl rfl
  simpa using h

/-- C9: under ignorefsync the fsync callback returns 0 at once with no
syscall, synchronous or deferred; with ignorefsync off and eagerfsync on
it returns 0 and submits to the executor a closure performing the real
fsync (or, for a datasync request, fdatasync) on the descriptor resolved
from the handle. -/
theorem c9_fsync_policy (ig ef ds : Bool) (fd syncRes errno : Int) :
    (ig = true → cannyfs_fsync ig ef ds fd syncRes errno = ⟨[], [], 0⟩)
    ∧ (ig = false → ef = true →
        cannyfs_fsync ig ef ds fd syncRes errno
          = ⟨[], [if ds then SyncCall.fdatasyncSys fd else SyncCall.fsyncSys fd],
              0⟩) :=
  ⟨fun hi => by simp [cannyfs_fsync, hi],
    fun hi he => by simp [cannyfs_fsync, hi, he]⟩

/-- Witness for c9_fsync_policy at concrete inputs. -/
theorem c9_fsync_policy_witness :
    cannyfs_fsync false true false 5 0 0 = ⟨[], [SyncCall.fsyncSys 5], 0⟩ := by
  have h := (c9_fsync_policy false true false 5 0 0).2 rfl rfl
  simpa using h

/-- C10: cannyfs_write calls abort() unconditionally before performing
any I/O, so the process terminates there; the pwrite that follows in the
body is unreachable and never executes for any input. -/
theorem c10_write_aborts (fd : Int) :
    executedSteps (cannyfs_write_body fd) = [WriteStep.abortStep]
    ∧ ∀ g : Int, WriteStep.pwriteStep g ∉ executedSteps (cannyfs_write_body fd) := by
  refine ⟨rfl, fun g h => ?_⟩
  simp [cannyfs_write_body, executedSteps] at h

end Cannyfs
